import Mathlib

/-!
Verification of the link-shortener core (packages/server/src/link-shortener).

The document store is modelled as a list of `ShortLink` records in insertion
order; the Firestore document id of a record is its index, which `add` assigns
by appending.  The service functions of `LinkShortenerService` and the
repository functions of `LinkShortenerRepository` are embedded as pure
functions over that store; fallible service calls return `Except ApiError`.
Time (`new Date()`), the generated short code (`generateShortCode()`), the
configured base URL and the creator IP are passed as explicit arguments, since
the source reads them from the environment at each call.
-/

namespace LinkShortener

/-- The `ShortLink` document model from `src/lib/db.ts`: `longUrl`,
`shortCode`, `createdAt` (a timestamp, modelled as a natural number of
milliseconds), `clicks`, and an optional `creatorIp`. -/
structure ShortLink where
  longUrl : String
  shortCode : String
  createdAt : Nat
  clicks : Nat
  creatorIp : Option String
deriving DecidableEq, Repr

/-- The `shortLinks` Firestore collection, in insertion order. -/
abbrev Store := List ShortLink

/-- `LinkShortenerRepository.findByShortCode`: an equality query on the
`shortCode` field returning the first match's data, or `null` when the query
result is empty. -/
def findByShortCode (store : Store) (shortCode : String) : Option ShortLink :=
  match store with
  | [] => none
  | l :: rest =>
    if l.shortCode == shortCode then some l else findByShortCode rest shortCode

/-- `LinkShortenerRepository.incrementClicks`: query by `shortCode`; when the
result is non-empty, apply an atomic `$.increment(1)` update to the `clicks`
field of the first result's document (located by its ref id); otherwise do
nothing. -/
def incrementClicks (store : Store) (shortCode : String) : Store :=
  match store with
  | [] => []
  | l :: rest =>
    if l.shortCode == shortCode then { l with clicks := l.clicks + 1 } :: rest
    else l :: incrementClicks rest shortCode

/-- The request body of `POST /shorten` (`CreateShortLinkDto`): `longUrl` and
an optional `customAlias`. -/
structure CreateShortLinkDto where
  longUrl : String
  customAlias : Option String
deriving DecidableEq, Repr

/-- `ShortLinkResponseDto`: the response shape returned by the create and
details endpoints.  It has no `creatorIp` field. -/
structure ShortLinkResponseDto where
  shortCode : String
  longUrl : String
  shortUrl : String
  createdAt : Nat
  clicks : Nat
deriving DecidableEq, Repr

/-- The errors thrown by the service and validation layers:
`BadRequestException` from the global `ValidationPipe` (carrying the messages
of the failing constraints), `ConflictException`, `NotFoundException`. -/
inductive ApiError where
  | validationFailed (messages : List String)
  | conflict (message : String)
  | notFound (message : String)
deriving DecidableEq, Repr

/-- The candidate short code of `createShortLink`:
`createDto.customAlias || this.generateShortCode()`.  JavaScript `||` tests
truthiness, so both a missing alias (`undefined`) and the empty string resolve
to the generated code. -/
def resolveCode (customAlias : Option String) (gen : String) : String :=
  match customAlias with
  | none => gen
  | some a => if a == "" then gen else a

/-- `LinkShortenerService.buildResponse`: shape a stored record into the
response DTO, with `shortUrl` = configured base URL + "/" + code. -/
def buildResponse (baseUrl : String) (l : ShortLink) : ShortLinkResponseDto :=
  { shortCode := l.shortCode
    longUrl := l.longUrl
    shortUrl := baseUrl ++ "/" ++ l.shortCode
    createdAt := l.createdAt
    clicks := l.clicks }

/-- `LinkShortenerService.createShortLink`: resolve the candidate code, check
it is free, and either throw `ConflictException` or persist a fresh record
(`clicks = 0`, `createdAt = now`) via `repository.create` (which appends) and
return its summary together with the updated store. -/
def createShortLink (dto : CreateShortLinkDto) (creatorIp : Option String)
    (gen : String) (now : Nat) (baseUrl : String) (store : Store) :
    Except ApiError (ShortLinkResponseDto × Store) :=
  let shortCode := resolveCode dto.customAlias gen
  match findByShortCode store shortCode with
  | some _ =>
    .error (.conflict ("Short code \"" ++ shortCode ++
      "\" is already in use. Please choose another alias."))
  | none =>
    let shortLink : ShortLink :=
      { longUrl := dto.longUrl
        shortCode := shortCode
        createdAt := now
        clicks := 0
        creatorIp := creatorIp }
    .ok (buildResponse baseUrl shortLink, store ++ [shortLink])

/-- `LinkShortenerService.getLongUrl`: look the code up; throw
`NotFoundException` if absent; otherwise fire off `incrementClicks` (whose
failure is only logged, never rethrown) and return the stored `longUrl`.
`incrementOk` models whether that detached increment succeeds; the returned
store reflects its outcome. -/
def getLongUrl (shortCode : String) (incrementOk : Bool) (store : Store) :
    Except ApiError (String × Store) :=
  match findByShortCode store shortCode with
  | none =>
    .error (.notFound ("Short link \"" ++ shortCode ++
      "\" not found. Please check the URL and try again."))
  | some shortLink =>
    .ok (shortLink.longUrl,
      if incrementOk then incrementClicks store shortCode else store)

/-- `LinkShortenerService.getShortLinkDetails`: look the code up; throw
`NotFoundException` if absent; otherwise return the summary. -/
def getShortLinkDetails (shortCode : String) (baseUrl : String)
    (store : Store) : Except ApiError ShortLinkResponseDto :=
  match findByShortCode store shortCode with
  | none => .error (.notFound ("Short link \"" ++ shortCode ++ "\" not found."))
  | some shortLink => .ok (buildResponse baseUrl shortLink)

/-- The character written by `Number.prototype.toString(36)` for one base-36
digit: `0`-`9` for digits below ten, `a`-`z` otherwise. -/
def base36Char (d : Nat) : Char :=
  if d < 10 then Char.ofNat (48 + d) else Char.ofNat (87 + d)

/-- `LinkShortenerService.generateShortCode`:
`Math.random().toString(36).substring(2, 8)`.  The pseudo-random draw in
`[0, 1)` is modelled by `digits`, the base-36 fractional digits of its
`toString(36)` rendering (each below 36, without trailing zeros; the empty
list is the draw `0`, rendered "0").  The rendering is `"0." ++ digits` (or
"0"), so `substring(2, 8)` keeps the first six fractional digits. -/
def generateShortCode (digits : List Nat) : String :=
  String.mk ((digits.take 6).map base36Char)

/-- One character of the alias charset `[a-zA-Z0-9-_]` from
`CreateShortLinkDto.customAlias`'s `Matches` rule. -/
def isCodeChar (c : Char) : Bool :=
  (decide (65 ≤ c.toNat) && decide (c.toNat ≤ 90)) ||
  (decide (97 ≤ c.toNat) && decide (c.toNat ≤ 122)) ||
  (decide (48 ≤ c.toNat) && decide (c.toNat ≤ 57)) ||
  c.toNat == 45 || c.toNat == 95

/-- The spec's short-code pattern from the testable-properties section. -/
def matchesCodePattern (s : String) : Bool :=
  decide (3 ≤ s.length) && decide (s.length ≤ 50) && s.data.all isCodeChar

/-- The `class-validator` constraints on `customAlias`: `IsOptional` skips
everything when the field is absent; otherwise `MinLength(3)`,
`MaxLength(50)` and `Matches(^[a-zA-Z0-9-_]+$)` must all hold. -/
def validAlias : Option String → Bool
  | none => true
  | some a =>
    decide (3 ≤ a.length) && decide (a.length ≤ 50) && a.data.all isCodeChar

/-- The constraint messages the `ValidationPipe` collects for `customAlias`,
one per failing decorator, in declaration order. -/
def aliasErrorMessages : Option String → List String
  | none => []
  | some a =>
    (if a.length < 3 then ["Custom alias must be at least 3 characters long"]
     else []) ++
    (if 50 < a.length then ["Custom alias must not exceed 50 characters"]
     else []) ++
    (if a.data.all isCodeChar && decide (1 ≤ a.length) then []
     else ["Custom alias can only contain letters, numbers, hyphens, and underscores"])

/-- The constraint message for `longUrl`'s `IsUrl` decorator; the URL check
itself (validator.js `isURL`) is kept abstract as `urlOk`. -/
def urlErrorMessages (urlOk : String → Bool) (longUrl : String) : List String :=
  if urlOk longUrl then [] else ["Please provide a valid URL with http:// or https://"]

/-- `POST /shorten` as seen through `main.ts`'s global `ValidationPipe`: the
DTO constraints run first and reject the request with a 400
`BadRequestException` before the controller delegates to the service. -/
def handleCreate (urlOk : String → Bool) (dto : CreateShortLinkDto)
    (creatorIp : Option String) (gen : String) (now : Nat) (baseUrl : String)
    (store : Store) : Except ApiError (ShortLinkResponseDto × Store) :=
  let msgs := urlErrorMessages urlOk dto.longUrl ++ aliasErrorMessages dto.customAlias
  if msgs.isEmpty then createShortLink dto creatorIp gen now baseUrl store
  else .error (.validationFailed msgs)

/-- A record with its `creatorIp` erased; two records are "the same except for
`creatorIp`" when `dropIp` maps them to the same value. -/
def dropIp (l : ShortLink) : ShortLink :=
  { l with creatorIp := none }

/-- The store-touching operations of the service layer, one constructor per
endpoint-level call (create, redirect via `getLongUrl`, details lookup) plus
the repository's raw `incrementClicks`. -/
inductive Op where
  | create (dto : CreateShortLinkDto) (ip : Option String) (gen : String) (now : Nat)
  | redirect (shortCode : String) (incrementOk : Bool)
  | details (shortCode : String)
  | increment (shortCode : String)
deriving DecidableEq, Repr

/-- The store after one service operation; a thrown error leaves it as it
was. -/
def applyOp (baseUrl : String) (store : Store) : Op → Store
  | .create dto ip gen now =>
    match createShortLink dto ip gen now baseUrl store with
    | .ok (_, s) => s
    | .error _ => store
  | .redirect code incrementOk =>
    match getLongUrl code incrementOk store with
    | .ok (_, s) => s
    | .error _ => store
  | .details _ => store
  | .increment code => incrementClicks store code

/-- The store after a sequence of service operations. -/
def applyOps (baseUrl : String) (store : Store) (ops : List Op) : Store :=
  ops.foldl (applyOp baseUrl) store

/-- The per-record invariant of the data model: the later record keeps the
earlier one's `longUrl`, `shortCode`, `createdAt` and `creatorIp` unchanged,
and its `clicks` is at least the earlier value. -/
def agreesFrozen (a b : ShortLink) : Prop :=
  b.longUrl = a.longUrl ∧ b.shortCode = a.shortCode ∧
  b.createdAt = a.createdAt ∧ b.creatorIp = a.creatorIp ∧
  a.clicks ≤ b.clicks

/-- `new` preserves `old` when every record of `old` is still at its index
with frozen fields intact and a `clicks` value at least as large. -/
def preserves (old new : Store) : Prop :=
  old.length ≤ new.length ∧
  ∀ i (h : i < old.length) (h2 : i < new.length),
    agreesFrozen (old.get ⟨i, h⟩) (new.get ⟨i, h2⟩)

/-- A concrete record used by the witness theorems. -/
def mkLink (shortCode : String) (clicks : Nat) : ShortLink :=
  { longUrl := "https://example.com/page"
    shortCode := shortCode
    createdAt := 1700000000
    clicks := clicks
    creatorIp := some "10.0.0.1" }

end LinkShortener

namespace Claims

open LinkShortener

/-- Claim C1: when the resolved code (custom alias if provided, else the
freshly generated code) is not already in the store, `createShortLink`
persists a new record with the given `longUrl`, `clicks = 0` and
`createdAt = now`, and returns a summary with that `shortCode`, the given
`longUrl`, `shortUrl = base ++ "/" ++ shortCode`, the record's `createdAt`,
and `clicks = 0`. -/
theorem c1_create_persists_and_summarizes (dto : CreateShortLinkDto)
    (ip : Option String) (gen : String) (now : Nat) (base : String)
    (store : Store)
    (h : findByShortCode store (resolveCode dto.customAlias gen) = none) :
    createShortLink dto ip gen now base store =
      .ok ({ shortCode := resolveCode dto.customAlias gen
             longUrl := dto.longUrl
             shortUrl := base ++ "/" ++ resolveCode dto.customAlias gen
             createdAt := now
             clicks := 0 },
           store ++ [{ longUrl := dto.longUrl
                       shortCode := resolveCode dto.customAlias gen
                       createdAt := now
                       clicks := 0
                       creatorIp := ip }]) := by
  simp only [createShortLink, h, buildResponse]

/-- Witness for C1 at a concrete call on the empty store. -/
theorem c1_witness :
    findByShortCode [] (resolveCode (none : Option String) "abc123") = none ∧
    createShortLink ⟨"https://example.com/a", none⟩ (some "127.0.0.1")
        "abc123" 42 "http://localhost:3005" [] =
      .ok ({ shortCode := "abc123"
             longUrl := "https://example.com/a"
             shortUrl := "http://localhost:3005/abc123"
             createdAt := 42
             clicks := 0 },
           [{ longUrl := "https://example.com/a"
              shortCode := "abc123"
              createdAt := 42
              clicks := 0
              creatorIp := some "127.0.0.1" }]) := by
  refine ⟨rfl, ?_⟩
  exact c1_create_persists_and_summarizes _ _ _ _ _ _ rfl

/-- Claim C2: when the resolved code is already present, `createShortLink`
fails with a Conflict error whose message names the taken code, and the
outcome is this single error for system-generated codes just as for custom
aliases (the theorem quantifies over both shapes of `dto.customAlias`); no
retry or regeneration happens. -/
theorem c2_conflict_on_taken_code (dto : CreateShortLinkDto)
    (ip : Option String) (gen : String) (now : Nat) (base : String)
    (store : Store) (l : ShortLink)
    (h : findByShortCode store (resolveCode dto.customAlias gen) = some l) :
    createShortLink dto ip gen now base store =
      .error (.conflict ("Short code \"" ++ resolveCode dto.customAlias gen ++
        "\" is already in use. Please choose another alias.")) ∧
    ∃ pre post,
      "Short code \"" ++ resolveCode dto.customAlias gen ++
          "\" is already in use. Please choose another alias." =
        pre ++ resolveCode dto.customAlias gen ++ post := by
  refine ⟨?_, "Short code \"",
    "\" is already in use. Please choose another alias.", rfl⟩
  simp only [createShortLink, h]

/-- Witness for C2: one concrete conflict with a custom alias and one with a
system-generated code, on a store already holding the code "taken". -/
theorem c2_witness :
    createShortLink ⟨"https://example.com/a", some "taken"⟩ none "g1x2y3" 7
        "http://localhost:3005"
        [{ longUrl := "https://old.example", shortCode := "taken"
           createdAt := 0, clicks := 3, creatorIp := none }] =
      .error (.conflict
        "Short code \"taken\" is already in use. Please choose another alias.") ∧
    createShortLink ⟨"https://example.com/a", none⟩ none "taken" 7
        "http://localhost:3005"
        [{ longUrl := "https://old.example", shortCode := "taken"
           createdAt := 0, clicks := 3, creatorIp := none }] =
      .error (.conflict
        "Short code \"taken\" is already in use. Please choose another alias.") := by
  constructor
  · exact (c2_conflict_on_taken_code _ _ _ _ _ _
      { longUrl := "https://old.example", shortCode := "taken"
        createdAt := 0, clicks := 3, creatorIp := none } (by decide)).1
  · exact (c2_conflict_on_taken_code _ _ _ _ _ _
      { longUrl := "https://old.example", shortCode := "taken"
        createdAt := 0, clicks := 3, creatorIp := none } (by decide)).1

/-- Claim C10: at the service interface, an empty-string `customAlias` is
treated exactly like an absent alias: the JavaScript truthiness test
`customAlias || generateShortCode()` replaces it by the generated code, so
the two calls are equal as functions of the remaining arguments. -/
theorem c10_empty_alias_like_missing (longUrl : String) (ip : Option String)
    (gen : String) (now : Nat) (base : String) (store : Store) :
    createShortLink { longUrl := longUrl, customAlias := some "" } ip gen
        now base store =
      createShortLink { longUrl := longUrl, customAlias := none } ip gen
        now base store := by
  simp only [createShortLink, resolveCode]
  rfl

end Claims

namespace Claims

open LinkShortener

/-- Incrementing by a code rewrites the first record found under that code
(and only it), so a lookup after the increment sees `clicks + 1`. -/
theorem find_after_increment (store : Store) (code : String) :
    findByShortCode (incrementClicks store code) code =
      (findByShortCode store code).map
        (fun l => { l with clicks := l.clicks + 1 }) := by
  induction store with
  | nil => rfl
  | cons head rest ih =>
    by_cases h : head.shortCode == code
    · simp [incrementClicks, findByShortCode, h]
    · simp [incrementClicks, findByShortCode, h, ih]

/-- When no record carries the code, `incrementClicks` is the identity. -/
theorem increment_no_match (store : Store) (code : String)
    (h : findByShortCode store code = none) :
    incrementClicks store code = store := by
  induction store with
  | nil => rfl
  | cons head rest ih =>
    by_cases hh : head.shortCode == code
    · simp [findByShortCode, hh] at h
    · simp only [findByShortCode, hh, if_neg, Bool.false_eq_true,
        if_false] at h
      simp [incrementClicks, hh, ih h]

/-- When a record is found under the code, the store splits around the first
match, and `incrementClicks` bumps exactly that record's counter. -/
theorem increment_decomp (store : Store) (code : String) (l : ShortLink)
    (h : findByShortCode store code = some l) :
    ∃ pre post, store = pre ++ l :: post ∧ findByShortCode pre code = none ∧
      incrementClicks store code =
        pre ++ ({ l with clicks := l.clicks + 1 } :: post) := by
  induction store with
  | nil => simp [findByShortCode] at h
  | cons head rest ih =>
    by_cases hh : head.shortCode == code
    · simp only [findByShortCode, hh, if_true, Option.some.injEq] at h
      subst h
      exact ⟨[], rest, rfl, rfl, by simp [incrementClicks, hh]⟩
    · simp only [findByShortCode, hh, Bool.false_eq_true, if_false] at h
      obtain ⟨pre, post, h1, h2, h3⟩ := ih h
      refine ⟨head :: pre, post, by simp [h1], ?_, ?_⟩
      · simp [findByShortCode, hh, h2]
      · simp [incrementClicks, hh, h3]

/-- Claim C8: `incrementClicks` re-resolves the record by code; when nothing
resolves it leaves the store unchanged and raises no error (it is total), and
when a record is found it adds exactly 1 to that record's `clicks`, leaving
every other record untouched. -/
theorem c8_incrementClicks_spec (code : String) (store : Store) :
    (findByShortCode store code = none → incrementClicks store code = store) ∧
    ∀ l, findByShortCode store code = some l →
      ∃ pre post, store = pre ++ l :: post ∧
        findByShortCode pre code = none ∧
        incrementClicks store code =
          pre ++ ({ l with clicks := l.clicks + 1 } :: post) :=
  ⟨increment_no_match store code, fun l h => increment_decomp store code l h⟩

/-- Witness for C8: a miss is a no-op, and a hit bumps the single record. -/
theorem c8_witness :
    incrementClicks [mkLink "abc" 4] "zzz" = [mkLink "abc" 4] ∧
    ∃ pre post, [mkLink "abc" 4] = pre ++ (mkLink "abc" 4) :: post ∧
      findByShortCode pre "abc" = none ∧
      incrementClicks [mkLink "abc" 4] "abc" =
        pre ++ ({ mkLink "abc" 4 with
          clicks := (mkLink "abc" 4).clicks + 1 } :: post) := by
  constructor
  · exact (c8_incrementClicks_spec "zzz" [mkLink "abc" 4]).1 (by decide)
  · exact (c8_incrementClicks_spec "abc" [mkLink "abc" 4]).2
      (mkLink "abc" 4) (by decide)

/-- Claim C3: `getLongUrl` fails with NotFound exactly when no record carries
the code; on a hit it returns the stored `longUrl` and the record's counter
moves up by exactly 1, observable through a subsequent
`getShortLinkDetails`. -/
theorem c3_getLongUrl_notfound_iff_and_increments (code base : String)
    (store : Store) :
    ((∃ msg, getLongUrl code true store = .error (.notFound msg)) ↔
      findByShortCode store code = none) ∧
    ∀ l, findByShortCode store code = some l →
      getLongUrl code true store = .ok (l.longUrl, incrementClicks store code) ∧
      getShortLinkDetails code base (incrementClicks store code) =
        .ok (buildResponse base { l with clicks := l.clicks + 1 }) := by
  constructor
  · constructor
    · rintro ⟨msg, hmsg⟩
      cases hf : findByShortCode store code with
      | none => rfl
      | some l => simp [getLongUrl, hf] at hmsg
    · intro hf
      exact ⟨"Short link \"" ++ code ++
        "\" not found. Please check the URL and try again.",
        by simp [getLongUrl, hf]⟩
  · intro l hf
    refine ⟨by simp [getLongUrl, hf], ?_⟩
    simp [getShortLinkDetails, find_after_increment, hf]

/-- Witness for C3 on a one-record store holding the code "abc". -/
theorem c3_witness :
    ((∃ msg, getLongUrl "abc" true [mkLink "abc" 4] =
        .error (.notFound msg)) ↔
      findByShortCode [mkLink "abc" 4] "abc" = none) ∧
    (getLongUrl "abc" true [mkLink "abc" 4] =
        .ok ((mkLink "abc" 4).longUrl, incrementClicks [mkLink "abc" 4] "abc") ∧
      getShortLinkDetails "abc" "http://localhost:3005"
          (incrementClicks [mkLink "abc" 4] "abc") =
        .ok (buildResponse "http://localhost:3005"
          { mkLink "abc" 4 with clicks := (mkLink "abc" 4).clicks + 1 })) := by
  constructor
  · exact (c3_getLongUrl_notfound_iff_and_increments "abc"
      "http://localhost:3005" [mkLink "abc" 4]).1
  · exact (c3_getLongUrl_notfound_iff_and_increments "abc"
      "http://localhost:3005" [mkLink "abc" 4]).2 (mkLink "abc" 4) (by decide)

/-- Claim C6: the value `getLongUrl` hands back is the same whether or not
the detached click increment succeeds, and on a known code the call is `ok`
for either outcome — an increment failure is never surfaced as an error. -/
theorem c6_redirect_independent_of_increment (code : String) (store : Store)
    (ok1 ok2 : Bool) :
    Except.map Prod.fst (getLongUrl code ok1 store) =
      Except.map Prod.fst (getLongUrl code ok2 store) ∧
    ∀ l, findByShortCode store code = some l → ∀ incrementOk,
      getLongUrl code incrementOk store =
        .ok (l.longUrl,
          if incrementOk then incrementClicks store code else store) := by
  constructor
  · cases hf : findByShortCode store code <;>
      simp [getLongUrl, hf, Except.map]
  · intro l hf incrementOk
    simp [getLongUrl, hf]

/-- Witness for C6: the redirect target on the store `[mkLink "abc" 4]` is
the same for a succeeding and for a failing increment. -/
theorem c6_witness :
    Except.map Prod.fst (getLongUrl "abc" true [mkLink "abc" 4]) =
      Except.map Prod.fst (getLongUrl "abc" false [mkLink "abc" 4]) ∧
    getLongUrl "abc" false [mkLink "abc" 4] =
      .ok ((mkLink "abc" 4).longUrl, [mkLink "abc" 4]) := by
  refine ⟨(c6_redirect_independent_of_increment "abc" [mkLink "abc" 4]
    true false).1, ?_⟩
  exact (c6_redirect_independent_of_increment "abc" [mkLink "abc" 4]
    true false).2 (mkLink "abc" 4) (by decide) false

end Claims

namespace Claims

open LinkShortener

/-- An alias that fails the `class-validator` constraints produces at least
one constraint message. -/
theorem alias_messages_nonempty (a : String)
    (h : validAlias (some a) = false) :
    aliasErrorMessages (some a) ≠ [] := by
  intro hnil
  simp only [aliasErrorMessages, List.append_eq_nil] at hnil
  obtain ⟨⟨h1, h2⟩, h3⟩ := hnil
  have c1 : ¬ a.length < 3 := by intro c; simp [c] at h1
  have c2 : ¬ 50 < a.length := by intro c; simp [c] at h2
  have c3 : a.data.all isCodeChar = true := by
    by_cases c : (a.data.all isCodeChar && decide (1 ≤ a.length)) = true
    · exact (Bool.and_eq_true _ _ |>.mp c).1
    · simp [c] at h3
  simp only [validAlias, c3, Bool.and_true, Bool.and_eq_false_iff,
    decide_eq_false_iff_not] at h
  rcases h with h | h
  · exact h (by omega)
  · exact h (by omega)

/-- Claim C7: a request whose custom alias violates the length or charset
rules is rejected by the `ValidationPipe` with a 400 carrying constraint
messages, and the outcome is the same for every store — the document store
is neither read nor written before the rejection. -/
theorem c7_invalid_alias_rejected_before_store (urlOk : String → Bool)
    (dto : CreateShortLinkDto) (ip : Option String) (gen : String)
    (now : Nat) (base : String) (store other : Store)
    (h : validAlias dto.customAlias = false) :
    (∃ msgs, msgs ≠ [] ∧
      handleCreate urlOk dto ip gen now base store =
        .error (.validationFailed msgs)) ∧
    handleCreate urlOk dto ip gen now base store =
      handleCreate urlOk dto ip gen now base other := by
  cases dto with
  | mk longUrl customAlias =>
    cases customAlias with
    | none => simp [validAlias] at h
    | some a =>
      have hne := alias_messages_nonempty a h
      have hmsgs :
          (urlErrorMessages urlOk longUrl ++ aliasErrorMessages (some a)) ≠
            [] := by
        intro hnil
        exact hne (List.append_eq_nil.mp hnil).2
      have hempty :
          (urlErrorMessages urlOk longUrl ++
            aliasErrorMessages (some a)).isEmpty = false := by
        cases he : urlErrorMessages urlOk longUrl ++ aliasErrorMessages (some a) with
        | nil => exact absurd he hmsgs
        | cons x xs => rfl
      constructor
      · exact ⟨_, hmsgs, by simp [handleCreate, hempty]⟩
      · simp [handleCreate, hempty]

/-- Witness for C7 at the two-character alias "ab". -/
theorem c7_witness :
    validAlias (some "ab") = false ∧
    ((∃ msgs, msgs ≠ [] ∧
        handleCreate (fun _ => true) ⟨"https://x.com", some "ab"⟩ none "g1x2y3"
          0 "http://localhost:3005" [] = .error (.validationFailed msgs)) ∧
      handleCreate (fun _ => true) ⟨"https://x.com", some "ab"⟩ none "g1x2y3"
          0 "http://localhost:3005" [] =
        handleCreate (fun _ => true) ⟨"https://x.com", some "ab"⟩ none "g1x2y3"
          0 "http://localhost:3005" [mkLink "abc" 4]) := by
  refine ⟨by decide, ?_⟩
  exact c7_invalid_alias_rejected_before_store (fun _ => true)
    ⟨"https://x.com", some "ab"⟩ none "g1x2y3" 0 "http://localhost:3005"
    [] [mkLink "abc" 4] (by decide)

/-- Looking a record up in a store whose `creatorIp` fields were erased gives
the erased form of the original lookup. -/
theorem find_map_dropIp (store : Store) (code : String) :
    findByShortCode (store.map dropIp) code =
      (findByShortCode store code).map dropIp := by
  induction store with
  | nil => rfl
  | cons head rest ih =>
    by_cases h : head.shortCode == code
    · simp [findByShortCode, dropIp, h]
    · simp [findByShortCode, dropIp, h, ih]

/-- `getShortLinkDetails` cannot tell a store from its `creatorIp`-erased
form. -/
theorem details_ignores_ip (code base : String) (store : Store) :
    getShortLinkDetails code base (store.map dropIp) =
      getShortLinkDetails code base store := by
  cases hf : findByShortCode store code with
  | none => simp [getShortLinkDetails, find_map_dropIp, hf]
  | some l => simp [getShortLinkDetails, find_map_dropIp, hf, dropIp, buildResponse]

/-- Claim C9: the summaries built for the create and details endpoints carry
no `creatorIp`: records equal up to `creatorIp` yield equal summaries, a
create call's response is the same for any two creator IPs, and the details
endpoint answers identically over stores equal up to `creatorIp`. -/
theorem c9_creatorIp_never_exposed (base : String) (l1 l2 : ShortLink)
    (h : dropIp l1 = dropIp l2) (dto : CreateShortLinkDto)
    (ip1 ip2 : Option String) (gen : String) (now : Nat) (store : Store)
    (code : String) (s1 s2 : Store) (hs : s1.map dropIp = s2.map dropIp) :
    buildResponse base l1 = buildResponse base l2 ∧
    Except.map Prod.fst (createShortLink dto ip1 gen now base store) =
      Except.map Prod.fst (createShortLink dto ip2 gen now base store) ∧
    getShortLinkDetails code base s1 = getShortLinkDetails code base s2 := by
  refine ⟨?_, ?_, ?_⟩
  · cases l1
    cases l2
    simp only [dropIp, ShortLink.mk.injEq] at h
    obtain ⟨e1, e2, e3, e4, _⟩ := h
    simp [buildResponse, e1, e2, e3, e4]
  · cases hf : findByShortCode store (resolveCode dto.customAlias gen) with
    | some l => simp [createShortLink, hf, Except.map]
    | none => simp [createShortLink, hf, Except.map, buildResponse]
  · rw [← details_ignores_ip code base s1, ← details_ignores_ip code base s2, hs]

/-- Witness for C9: two records differing only in `creatorIp`. -/
theorem c9_witness :
    buildResponse "http://localhost:3005" (mkLink "abc" 4) =
      buildResponse "http://localhost:3005"
        { mkLink "abc" 4 with creatorIp := none } ∧
    Except.map Prod.fst (createShortLink ⟨"https://example.com/a", none⟩
        (some "10.0.0.1") "g1x2y3" 7 "http://localhost:3005" []) =
      Except.map Prod.fst (createShortLink ⟨"https://example.com/a", none⟩
        none "g1x2y3" 7 "http://localhost:3005" []) ∧
    getShortLinkDetails "abc" "http://localhost:3005" [mkLink "abc" 4] =
      getShortLinkDetails "abc" "http://localhost:3005"
        [{ mkLink "abc" 4 with creatorIp := none }] := by
  exact c9_creatorIp_never_exposed "http://localhost:3005" (mkLink "abc" 4)
    { mkLink "abc" 4 with creatorIp := none } (by decide)
    ⟨"https://example.com/a", none⟩ (some "10.0.0.1") none "g1x2y3" 7 []
    "abc" [mkLink "abc" 4] [{ mkLink "abc" 4 with creatorIp := none }]
    (by decide)

/-- Claim C4 (failing input): the draw `Math.random() = 0.5` renders as
"0.i" in base 36, so `substring(2, 8)` yields the one-character code "i" —
shorter than the three-character minimum the claim (and the generator's own
"6-character" comment) promises.  `[18]` is that draw's base-36 fractional
digit list. -/
theorem c4_generator_short_draw :
    (∀ d ∈ [18], d < 36) ∧
    generateShortCode [18] = "i" ∧
    (generateShortCode [18]).length = 1 ∧
    matchesCodePattern (generateShortCode [18]) = false := by
  exact ⟨by decide, by decide, by decide, by decide⟩

end Claims

namespace Claims

open LinkShortener

/-- Every record agrees with itself. -/
theorem agreesFrozen_refl (a : ShortLink) : agreesFrozen a a :=
  ⟨rfl, rfl, rfl, rfl, Nat.le_refl _⟩

/-- `agreesFrozen` composes along a chain of stores. -/
theorem agreesFrozen_trans {a b c : ShortLink} (h1 : agreesFrozen a b)
    (h2 : agreesFrozen b c) : agreesFrozen a c := by
  obtain ⟨x1, x2, x3, x4, x5⟩ := h1
  obtain ⟨y1, y2, y3, y4, y5⟩ := h2
  exact ⟨y1.trans x1, y2.trans x2, y3.trans x3, y4.trans x4,
    Nat.le_trans x5 y5⟩

/-- `preserves` is reflexive. -/
theorem preserves_refl (s : Store) : preserves s s :=
  ⟨Nat.le_refl _, fun _ _ _ => agreesFrozen_refl _⟩

/-- `preserves` is transitive. -/
theorem preserves_trans {a b c : Store} (h1 : preserves a b)
    (h2 : preserves b c) : preserves a c := by
  obtain ⟨l1, f1⟩ := h1
  obtain ⟨l2, f2⟩ := h2
  refine ⟨Nat.le_trans l1 l2, fun i h h2 => ?_⟩
  have hb : i < b.length := Nat.lt_of_lt_of_le h l1
  exact agreesFrozen_trans (f1 i h hb) (f2 i hb h2)

/-- Extending both stores with agreeing heads keeps preservation. -/
theorem preserves_cons_of (a b : ShortLink) (hab : agreesFrozen a b)
    {s t : Store} (h : preserves s t) : preserves (a :: s) (b :: t) := by
  obtain ⟨hl, hf⟩ := h
  refine ⟨Nat.succ_le_succ hl, fun i hi hi2 => ?_⟩
  cases i with
  | zero => exact hab
  | succ j =>
    exact hf j (Nat.lt_of_succ_lt_succ hi) (Nat.lt_of_succ_lt_succ hi2)

/-- Appending new records at the end preserves the existing ones. -/
theorem preserves_append (s t : Store) : preserves s (s ++ t) := by
  induction s with
  | nil => exact ⟨Nat.zero_le _, fun i h _ => absurd h (Nat.not_lt_zero i)⟩
  | cons a s ih => exact preserves_cons_of a a (agreesFrozen_refl a) ih

/-- The atomic increment preserves every record: frozen fields keep their
values and the bumped counter only grows. -/
theorem preserves_increment (s : Store) (code : String) :
    preserves s (incrementClicks s code) := by
  induction s with
  | nil => exact preserves_refl []
  | cons a s ih =>
    by_cases h : a.shortCode == code
    · rw [show incrementClicks (a :: s) code =
        { a with clicks := a.clicks + 1 } :: s from by
          simp [incrementClicks, h]]
      exact preserves_cons_of a { a with clicks := a.clicks + 1 }
        ⟨rfl, rfl, rfl, rfl, Nat.le_succ _⟩ (preserves_refl s)
    · rw [show incrementClicks (a :: s) code =
        a :: incrementClicks s code from by simp [incrementClicks, h]]
      exact preserves_cons_of a a (agreesFrozen_refl a) ih

/-- Each single service operation preserves every pre-existing record. -/
theorem preserves_applyOp (base : String) (store : Store) (op : Op) :
    preserves store (applyOp base store op) := by
  cases op with
  | create dto ip gen now =>
    simp only [applyOp, createShortLink]
    cases hf : findByShortCode store (resolveCode dto.customAlias gen) with
    | some l => simp only [hf]; exact preserves_refl store
    | none => simp only [hf]; exact preserves_append store _
  | redirect code incrementOk =>
    simp only [applyOp, getLongUrl]
    cases hf : findByShortCode store code with
    | none => simp only [hf]; exact preserves_refl store
    | some l =>
      simp only [hf]
      cases incrementOk with
      | true => simpa using preserves_increment store code
      | false => simpa using preserves_refl store
  | details code => exact preserves_refl store
  | increment code => exact preserves_increment store code

/-- Whole operation sequences preserve every pre-existing record. -/
theorem preserves_applyOps (base : String) (ops : List Op) (store : Store) :
    preserves store (applyOps base store ops) := by
  induction ops generalizing store with
  | nil => exact preserves_refl store
  | cons op ops ih =>
    exact preserves_trans (preserves_applyOp base store op)
      (ih (applyOp base store op))

/-- Claim C5: across any sequence of service operations, a record created at
some index keeps its `longUrl`, `shortCode`, `createdAt` and `creatorIp`
forever, and its `clicks` value never decreases — it moves only through the
atomic increment, never by overwrite. -/
theorem c5_records_frozen_clicks_monotone (base : String) (ops : List Op)
    (store : Store) (i : Nat) (h : i < store.length)
    (h2 : i < (applyOps base store ops).length) :
    agreesFrozen (store.get ⟨i, h⟩) ((applyOps base store ops).get ⟨i, h2⟩) :=
  (preserves_applyOps base ops store).2 i h h2

/-- Witness for C5: one record surviving a redirect, a details lookup, a
create and a raw increment. -/
theorem c5_witness :
    agreesFrozen (([mkLink "abc" 0] : Store).get ⟨0, by decide⟩)
      ((applyOps "http://localhost:3005" [mkLink "abc" 0]
          [Op.redirect "abc" true, Op.details "abc",
           Op.create ⟨"https://y.example/z", some "other"⟩ none "g1x2y3" 5,
           Op.increment "abc"]).get ⟨0, by decide⟩) :=
  c5_records_frozen_clicks_monotone "http://localhost:3005"
    [Op.redirect "abc" true, Op.details "abc",
     Op.create ⟨"https://y.example/z", some "other"⟩ none "g1x2y3" 5,
     Op.increment "abc"]
    [mkLink "abc" 0] 0 (by decide) (by decide)

end Claims
